import Mathlib

/-!
Verification of the DNSMon alert engine (backend/alerts.py, backend/notifications.py,
backend/service.py) against its specification.

Python strings are modelled as `List Char`; timestamps as `Int` (minutes since an
arbitrary epoch — `datetime` arithmetic with `timedelta(minutes=·)` is linear order
plus subtraction, which is all the code uses); database tables as Lean lists with an
explicit auto-increment counter.  A compiled `re.Pattern` produced by
`AlertEngine._compile_patterns` is modelled by the wildcard string it was translated
from: the translation escapes every literal character, turns `*` into `.*?`, `?` into
`.`, anchors with `^...$` and compiles with `re.IGNORECASE` (no `re.DOTALL`), so the
boolean value of `pattern.fullmatch(value)` is exactly case-insensitive glob matching
of the wildcard string against the whole value, where `*` matches any (possibly
empty) sequence of non-newline characters and `?` matches any single non-newline
character — Python's `.` never matches `'\n'` without `DOTALL`, and non-greedy `.*?`
versus `.*` cannot change whether a full match exists.  `globMatch` below implements
that semantics directly.
-/

namespace DNSMon

/-- Python strings, modelled as lists of characters. -/
abbrev Str := List Char

/-- `str.lower()` (per-character lowering; the code only compares ASCII). -/
def lowerStr (s : Str) : Str := s.map Char.toLower

/-- Python `needle in hay` for strings: contiguous-substring test
(`"" in s` is `True`, as in Python). -/
def isSubstring : Str → Str → Bool
  | n, [] => n.isEmpty
  | n, h :: t => List.isPrefixOf n (h :: t) || isSubstring n t

/-- Python `str.strip()`: drop whitespace from both ends. -/
def trim (s : Str) : Str :=
  ((s.dropWhile Char.isWhitespace).reverse.dropWhile Char.isWhitespace).reverse

/-- Python `str.split(sep)` for a one-character separator: `"".split(',') = ['']`,
`"a,,b".split(',') = ['a','','b']`. -/
def splitSep (sep : Char) : Str → List Str
  | [] => [[]]
  | c :: t =>
    match splitSep sep t with
    | [] => [[c]]
    | g :: gs => if c = sep then [] :: g :: gs else (c :: g) :: gs

/-- Helper for `*` in a wildcard pattern: `starMatch m s` holds iff `m` accepts a
suffix of `s` that is reachable by consuming only non-newline characters; this is
the boolean semantics of the non-greedy `.*?` prefix the compiler emits for `*`
(Python's `.` without `re.DOTALL` never matches `'\n'`). -/
def starMatch (m : Str → Bool) : Str → Bool
  | [] => m []
  | s@(c :: t) => m s || (c ≠ '\n' && starMatch m t)

/-- Case-insensitive anchored wildcard matching: the boolean semantics of the regex
`_compile_patterns` builds (`re.escape`, `\*` ↦ `.*?`, `\?` ↦ `.`, `^…$`,
`re.IGNORECASE`, no `re.DOTALL`) applied via `pattern.fullmatch(value)`: `*`
matches any sequence of non-newline characters, `?` any single non-newline
character, and a literal character compares case-insensitively. -/
def globMatch : Str → Str → Bool
  | [], s => s.isEmpty
  | c :: ps, s =>
    if c = '*' then starMatch (globMatch ps) s
    else
      match s with
      | [] => false
      | d :: t =>
        (if c = '?' then d ≠ '\n' else c.toLower = d.toLower) && globMatch ps t

/-- `AlertEngine._normalize_pattern`: strip, and wrap a wildcard-free pattern as
`*pattern*`. -/
def normalizePattern (p : Str) : Str :=
  let p := trim p
  if p.isEmpty then p
  else if ¬p.contains '*' ∧ ¬p.contains '?' then '*' :: (p ++ ['*'])
  else p

/-- One iteration of the loop in `AlertEngine._compile_patterns`: strip, skip empties,
normalize, skip patterns with more than 10 wildcards, truncate past 1000 characters,
compile (compilation of an escaped pattern never fails, so the `re.error` branch is
unreachable).  Returns the wildcard string the compiled regex is equivalent to. -/
def compileOne (pat : Str) : Option Str :=
  let p := trim pat
  if p.isEmpty then none
  else
    let p := normalizePattern p
    let wildcardCount := p.count '*' + p.count '?'
    if wildcardCount > 10 then none
    else
      let p := if p.length > 1000 then p.take 1000 else p
      some p

/-- `AlertEngine._compile_patterns`: split the comma-separated pattern string and
compile each piece. -/
def compilePatterns (patternString : Option Str) : List Str :=
  match patternString with
  | none => []
  | some s => if s.isEmpty then [] else (splitSep ',' s).filterMap compileOne

/-- `AlertEngine._should_exclude`.  `json.loads` on a JSON-array exclusion string is
modelled by the oracle `jsonArr`: it returns the parsed array's elements in their
Python `str()` form, or `none` when the string is invalid JSON or does not parse to a
list (both of which make the source return `False`). -/
def shouldExclude (jsonArr : Str → Option (List Str)) (domain : Str)
    (excludeDomains : Option Str) : Bool :=
  match excludeDomains with
  | none => false
  | some ed =>
    if ed.isEmpty then false
    else
      let excludes? : Option (List Str) :=
        if (trim ed).head? = some '[' then jsonArr ed
        else some (((splitSep ',' ed).map trim).filter (fun e => ¬e.isEmpty))
      match excludes? with
      | none => false
      | some excludes =>
        excludes.any (fun e => isSubstring (lowerStr e) (lowerStr domain))

/-- The exclusion-term list as the spec describes it ("terms come from a
comma-separated string or a legacy JSON array, and invalid JSON means no
exclusions"); used as the declarative side of the matching characterization. -/
def exclusionTerms (jsonArr : Str → Option (List Str)) :
    Option Str → List Str
  | none => []
  | some ed =>
    if ed.isEmpty then []
    else if (trim ed).head? = some '[' then (jsonArr ed).getD []
    else ((splitSep ',' ed).map trim).filter (fun e => ¬e.isEmpty)

/-- `AlertEngine._matches_compiled_patterns`: `if not patterns or not value: return
not patterns`, else any-fullmatch.  `value` is `none` for a NULL column and
`some []` for the empty string; Python's `not value` is true for both. -/
def matchesCompiledPatterns (value : Option Str) (patterns : List Str) : Bool :=
  let v := value.getD []
  if patterns.isEmpty || v.isEmpty then patterns.isEmpty
  else patterns.any (fun p => globMatch p v)

/-- The columns of `models.Query` that the alert engine reads. -/
structure Query where
  id : Nat
  domain : Str
  client_ip : Str
  client_hostname : Option Str
  timestamp : Int
  server : Str
deriving DecidableEq

/-- The columns of `models.AlertRule` that the alert engine reads. -/
structure AlertRule where
  id : Nat
  name : Str
  domain_pattern : Option Str
  client_ip_pattern : Option Str
  client_hostname_pattern : Option Str
  exclude_domains : Option Str
  cooldown_minutes : Int
  enabled : Bool
deriving DecidableEq

/-- The per-rule entry of the pattern cache: the dict
`{'domain': …, 'client_ip': …, 'client_hostname': …}` built in
`_get_cached_patterns`. -/
structure PatternSet where
  domain : List Str
  client_ip : List Str
  client_hostname : List Str
deriving DecidableEq

/-- The empty pattern dict `{}` that `cached_patterns.get(rule.id, {})` falls back
to. -/
def emptyPatternSet : PatternSet := ⟨[], [], []⟩

/-- The per-rule body of the loop in `AlertEngine._evaluate_query_against_rules`:
exclusion check first, then the three sequential field checks on the `matches`
flag. -/
def ruleMatches (jsonArr : Str → Option (List Str)) (q : Query) (rule : AlertRule)
    (patterns : PatternSet) : Bool :=
  if shouldExclude jsonArr q.domain rule.exclude_domains then false
  else
    let m : Bool :=
      if patterns.domain.isEmpty then true
      else matchesCompiledPatterns (some q.domain) patterns.domain
    let m : Bool :=
      if m then
        if patterns.client_ip.isEmpty then m
        else if matchesCompiledPatterns (some q.client_ip) patterns.client_ip then m
        else false
      else m
    let m : Bool :=
      if m then
        if patterns.client_hostname.isEmpty then m
        else if matchesCompiledPatterns q.client_hostname patterns.client_hostname
        then m
        else false
      else m
    m

/-- `AlertEngine._evaluate_query_against_rules`: collect the ids of the matching
rules in rule order.  The `cached_patterns` dict is modelled as a total function;
a missing entry is the empty pattern dict. -/
def evaluateQueryAgainstRules (jsonArr : Str → Option (List Str)) (q : Query)
    (rules : List AlertRule) (cached : Nat → PatternSet) : List Nat :=
  rules.foldl
    (fun acc rule =>
      if ruleMatches jsonArr q rule (cached rule.id) then acc ++ [rule.id] else acc)
    []

example : globMatch ('*' :: ('g' :: 'o' :: 'o' :: [] ++ ['*'])) "DOGOOD".toList = true := by decide

example : globMatch ['*'] [] = true := by decide

example : compilePatterns (some "google".toList) = ["*google*".toList] := by decide

example : matchesCompiledPatterns (some []) [['*']] = false := by decide

/-! ### Alert history and the cooldown gate -/

/-- A row of the `alert_history` table.  `triggered_at` is filled by the column
default `utcnow` at insert time; `id` by auto-increment. -/
structure AlertHistoryRow where
  id : Nat
  alert_rule_id : Nat
  query_id : Nat
  triggered_at : Int
  notification_sent : Bool
  notification_error : Option Str
deriving DecidableEq

/-- The `alert_history` table together with its auto-increment counter. -/
structure HistDB where
  rows : List AlertHistoryRow
  nextId : Nat
deriving DecidableEq

/-- The `select(AlertHistory).where(alert_rule_id == rule_id, triggered_at >=
cooldown_start).limit(1)` existence check shared by `_is_in_cooldown` and
`try_record_alert`. -/
def hasRecentAlert (db : HistDB) (ruleId : Nat) (cooldownStart : Int) : Bool :=
  db.rows.any (fun r => r.alert_rule_id = ruleId ∧ cooldownStart ≤ r.triggered_at)

/-- `AlertEngine._is_in_cooldown`.  `checkFails` models the storage lookup raising:
the `except` branch logs and returns `False` ("assume not in cooldown to avoid
missing alerts"). -/
def isInCooldown (db : HistDB) (ruleId : Nat) (cooldownMinutes : Int) (now : Int)
    (checkFails : Bool) : Bool :=
  if cooldownMinutes ≤ 0 then false
  else if checkFails then false
  else hasRecentAlert db ruleId (now - cooldownMinutes)

/-- The insert-commit-refresh tail of `try_record_alert`: add an `AlertHistory` row
with `notification_sent=False`, `notification_error=None`, `triggered_at` = now,
and return its fresh id. -/
def recordRow (db : HistDB) (queryId ruleId : Nat) (now : Int) :
    Option Nat × HistDB :=
  let row : AlertHistoryRow :=
    { id := db.nextId, alert_rule_id := ruleId, query_id := queryId,
      triggered_at := now, notification_sent := false, notification_error := none }
  (some db.nextId, { rows := db.rows ++ [row], nextId := db.nextId + 1 })

/-- `AlertEngine.try_record_alert`, as executed under the per-rule lock.
`checkFails` models the cooldown `select` raising: the exception propagates to the
`except` handler, which logs and returns `None` without reaching the insert. -/
def tryRecordAlert (db : HistDB) (queryId ruleId : Nat) (cooldownMinutes : Int)
    (now : Int) (checkFails : Bool) : Option Nat × HistDB :=
  if 0 < cooldownMinutes then
    if checkFails then (none, db)
    else if hasRecentAlert db ruleId (now - cooldownMinutes) then (none, db)
    else recordRow db queryId ruleId now
  else recordRow db queryId ruleId now

/-- N `try_record_alert` calls for the same rule, serialized by the per-rule
`asyncio.Lock` into some sequential order; all callers run concurrently, so each
holds the lock at (model) time `now`.  `calls` is the list of query ids in lock
acquisition order. -/
def runTryRecordSeq (db : HistDB) (calls : List Nat) (ruleId : Nat)
    (cooldownMinutes : Int) (now : Int) : List (Option Nat) × HistDB :=
  match calls with
  | [] => ([], db)
  | q :: qs =>
    let r := tryRecordAlert db q ruleId cooldownMinutes now false
    let rest := runTryRecordSeq r.2 qs ruleId cooldownMinutes now
    (r.1 :: rest.1, rest.2)

/-- `AlertEngine.update_alert_status`: load the row by primary key and, when found,
overwrite `notification_sent` and `notification_error`. -/
def updateAlertStatus (db : HistDB) (alertHistoryId : Nat)
    (notificationSent : Bool) (error : Option Str) : HistDB :=
  { db with
    rows := db.rows.map (fun r =>
      if r.id = alertHistoryId then
        { r with notification_sent := notificationSent,
                 notification_error := error }
      else r) }

/-- The status-update tail of `process_rule_batch` in `service.py`:
`success = any(results.values()) if results else False`, then
`update_alert_status(alert_history_id, notification_sent=success)` — the `error`
keyword is not passed, so it defaults to `None`. -/
def processBatchStatusUpdate (db : HistDB) (alertHistoryId : Nat)
    (results : List (Nat × Bool)) : HistDB :=
  let success := results.any (fun p => p.2)
  updateAlertStatus db alertHistoryId success none

/-! ### The two LRU caches -/

/-- Lookup in an `OrderedDict`, modelled as an association list ordered from least
to most recently inserted/used. -/
def assocFind (c : List (Nat × α)) (k : Nat) : Option α :=
  match c with
  | [] => none
  | (k', v) :: t => if k' = k then some v else assocFind t k

/-- `OrderedDict.move_to_end(k)` for a dict with distinct keys. -/
def moveToEnd (c : List (Nat × α)) (k : Nat) : List (Nat × α) :=
  match assocFind c k with
  | none => c
  | some v => c.filter (fun p => p.1 ≠ k) ++ [(k, v)]

/-- `AlertEngine._rule_locks` with its bound, plus a counter generating fresh lock
identities (an `asyncio.Lock()` is modelled by the number telling which allocation
it was). -/
structure LockRegistry where
  rule_locks : List (Nat × Nat)
  next_lock : Nat
  max_locks : Nat
deriving DecidableEq

/-- `AlertEngine._get_rule_lock`, the body guarded by `_locks_lock`: hit moves the
entry to most-recently-used; miss allocates, appends, and pops the front entry when
the dict exceeds `_max_locks`. -/
def getRuleLock (st : LockRegistry) (ruleId : Nat) : Nat × LockRegistry :=
  match assocFind st.rule_locks ruleId with
  | some lock => (lock, { st with rule_locks := moveToEnd st.rule_locks ruleId })
  | none =>
    let lock := st.next_lock
    let locks := st.rule_locks ++ [(ruleId, lock)]
    let locks := if st.max_locks < locks.length then locks.drop 1 else locks
    (lock, { st with rule_locks := locks, next_lock := st.next_lock + 1 })

/-- `AlertEngine._pattern_cache` with its bound. -/
structure PatternCache where
  pattern_cache : List (Nat × PatternSet)
  max_pattern_cache : Nat
deriving DecidableEq

/-- `AlertEngine._get_cached_patterns`, the body guarded by `_cache_lock`: hit moves
to most-recently-used; miss compiles the rule's three pattern fields, appends, and
pops the front entry when the dict exceeds `_max_pattern_cache`. -/
def getCachedPatterns (st : PatternCache) (rule : AlertRule) :
    PatternSet × PatternCache :=
  match assocFind st.pattern_cache rule.id with
  | some ps => (ps, { st with pattern_cache := moveToEnd st.pattern_cache rule.id })
  | none =>
    let cached : PatternSet :=
      { domain := compilePatterns rule.domain_pattern,
        client_ip := compilePatterns rule.client_ip_pattern,
        client_hostname := compilePatterns rule.client_hostname_pattern }
    let c := st.pattern_cache ++ [(rule.id, cached)]
    let c := if st.max_pattern_cache < c.length then c.drop 1 else c
    (cached, { st with pattern_cache := c })

/-- `AlertEngine.invalidate_cache`: with a rule id, delete that entry if present;
with `None`, clear the whole cache. -/
def invalidateCache (st : PatternCache) (ruleId : Option Nat) : PatternCache :=
  match ruleId with
  | none => { st with pattern_cache := [] }
  | some rid =>
    { st with pattern_cache := st.pattern_cache.filter (fun p => p.1 ≠ rid) }

/-- The sizes `AlertEngine.__init__` configures: `_max_locks = 1000`,
`_max_pattern_cache = 500`. -/
def initAlertEngine : LockRegistry × PatternCache :=
  ({ rule_locks := [], next_lock := 0, max_locks := 1000 },
   { pattern_cache := [], max_pattern_cache := 500 })

/-- Folding `_get_rule_lock` over a list of rule ids (state only). -/
def insertAllLocks (st : LockRegistry) (ids : List Nat) : LockRegistry :=
  ids.foldl (fun s i => (getRuleLock s i).2) st

/-- Folding `_get_cached_patterns` over a list of rules (state only). -/
def insertAllPatterns (st : PatternCache) (rules : List AlertRule) : PatternCache :=
  rules.foldl (fun s r => (getCachedPatterns s r).2) st

/-- The key-order dynamics shared by `_get_rule_lock` and `_get_cached_patterns`
(the values aside): a hit moves the key to most-recently-used, a miss appends
and pops the front (least-recently-used) key when the dict exceeds the bound. -/
def lruKeysStep (ks : List Nat) (k : Nat) (maxSize : Nat) : List Nat :=
  if ks.contains k then ks.filter (fun x => x ≠ k) ++ [k]
  else if maxSize < ks.length + 1 then (ks ++ [k]).drop 1 else ks ++ [k]

/-! ### Notification dispatch -/

/-- The closed set of keys of the `SENDERS` registry in `notifications.py`. -/
def knownChannelTypes : List Str :=
  ["telegram".toList, "pushover".toList, "ntfy".toList, "discord".toList,
   "webhook".toList]

/-- The columns of `models.NotificationChannel` that `send_batch_alert` reads and
writes. -/
structure Channel where
  id : Nat
  channel_type : Str
  enabled : Bool
  last_success_at : Option Int
  last_error : Option Str
  last_error_at : Option Int
  consecutive_failures : Nat
deriving DecidableEq

/-- Outcome of one channel's iteration in `send_batch_alert`: the transport's
`(success, error)` pair, or an exception raised anywhere inside the per-channel
`try` block (context building, rendering, sending). -/
inductive SendOutcome where
  | success
  | failure (err : Str)
  | raised (err : Str)
deriving DecidableEq

/-- The health-field update of one channel after its send attempt, and the boolean
recorded in the `results` dict: success clears `last_error`/`last_error_at`, sets
`last_success_at` and resets `consecutive_failures`; a returned error or a raised
exception records the error string and timestamp and increments
`consecutive_failures`. -/
def applyOutcome (ch : Channel) (oc : SendOutcome) (now : Int) : Channel × Bool :=
  match oc with
  | .success =>
    ({ ch with last_success_at := some now, last_error := none,
               last_error_at := none, consecutive_failures := 0 }, true)
  | .failure e =>
    ({ ch with last_error := some e, last_error_at := some now,
               consecutive_failures := ch.consecutive_failures + 1 }, false)
  | .raised e =>
    ({ ch with last_error := some e, last_error_at := some now,
               consecutive_failures := ch.consecutive_failures + 1 }, false)

/-- One iteration of the channel loop in
`NotificationService.send_batch_alert`: `SENDERS.get` miss records `False` and
leaves the channel untouched (`continue`); otherwise the attempt's outcome is
applied.  `outcome` maps a channel id to what its send attempt did. -/
def processChannel (outcome : Nat → SendOutcome) (now : Int) (ch : Channel) :
    Channel × (Nat × Bool) :=
  if knownChannelTypes.contains ch.channel_type then
    let r := applyOutcome ch (outcome ch.id) now
    (r.1, (ch.id, r.2))
  else (ch, (ch.id, false))

/-- `NotificationService.send_batch_alert`: empty batch returns `{}` untouched;
otherwise every enabled channel is processed in order, building the per-channel
result map (as an association list in iteration order — ids are primary keys) and
the updated channel rows committed at the end. -/
def sendBatchAlert (queries : List Query) (channels : List Channel)
    (outcome : Nat → SendOutcome) (now : Int) :
    List (Nat × Bool) × List Channel :=
  if queries.isEmpty then ([], channels)
  else
    let processed := channels.map (processChannel outcome now)
    (processed.map (fun p => p.2), processed.map (fun p => p.1))

/-! ## Helper lemmas on strings, trimming and glob matching -/

theorem dropWhile_eq_self_of_forall {p : Char → Bool} {l : Str}
    (h : ∀ c ∈ l, p c = false) : l.dropWhile p = l := by
  cases l with
  | nil => rfl
  | cons c t => simp [List.dropWhile_cons, h c (by simp)]

theorem dropWhile_dropWhile (p : Char → Bool) (l : Str) :
    (l.dropWhile p).dropWhile p = l.dropWhile p := by
  induction l with
  | nil => rfl
  | cons c t ih =>
    by_cases h : p c
    · simp [List.dropWhile_cons, h, ih]
    · simp [List.dropWhile_cons, h]

theorem head_dropWhile_false {p : Char → Bool} :
    ∀ (l : Str) (c : Char), (l.dropWhile p).head? = some c → p c = false := by
  intro l
  induction l with
  | nil => intro c h; simp at h
  | cons d t ih =>
    intro c h
    cases hpd : p d with
    | true => exact ih c (by simpa [List.dropWhile_cons, hpd] using h)
    | false =>
      have hd : d = c := by simpa [List.dropWhile_cons, hpd] using h
      rwa [← hd]

theorem dropWhile_eq_self_of_head {p : Char → Bool} {l : Str} {c : Char}
    (hc : l.head? = some c) (hpc : p c = false) : l.dropWhile p = l := by
  cases l with
  | nil => rfl
  | cons d t =>
    have hd : d = c := by simpa using hc
    simp [List.dropWhile_cons, hd, hpc]

theorem trim_eq_self_of_forall {s : Str}
    (h : ∀ c ∈ s, Char.isWhitespace c = false) : trim s = s := by
  unfold trim
  rw [dropWhile_eq_self_of_forall h,
      dropWhile_eq_self_of_forall (fun c hc => h c (List.mem_reverse.mp hc)),
      List.reverse_reverse]

theorem trim_prefix_aux (s : Str) :
    trim s <+: s.dropWhile Char.isWhitespace := by
  unfold trim
  conv_rhs => rw [← List.reverse_reverse (s.dropWhile Char.isWhitespace)]
  exact List.reverse_prefix.mpr (List.dropWhile_suffix _)

theorem mem_trim {c : Char} {s : Str} (h : c ∈ trim s) : c ∈ s := by
  exact (List.dropWhile_suffix _).subset ((trim_prefix_aux s).subset h)

theorem trim_idem (s : Str) : trim (trim s) = trim s := by
  have hfront : (trim s).dropWhile Char.isWhitespace = trim s := by
    cases htrim : trim s with
    | nil => rfl
    | cons c rest =>
      have hpre := trim_prefix_aux s
      rw [htrim] at hpre
      obtain ⟨k, hk⟩ := hpre
      have hc : (s.dropWhile Char.isWhitespace).head? = some c := by
        rw [← hk]; rfl
      exact dropWhile_eq_self_of_head rfl (head_dropWhile_false _ _ hc)
  have hdef : trim (trim s) =
      (((trim s).dropWhile Char.isWhitespace).reverse.dropWhile
        Char.isWhitespace).reverse := rfl
  rw [hdef, hfront]
  have hrev : (trim s).reverse =
      (s.dropWhile Char.isWhitespace).reverse.dropWhile Char.isWhitespace := by
    unfold trim
    rw [List.reverse_reverse]
  rw [hrev, dropWhile_dropWhile, ← hrev, List.reverse_reverse]

theorem splitSep_of_not_mem {sep : Char} {s : Str} (h : ∀ c ∈ s, c ≠ sep) :
    splitSep sep s = [s] := by
  induction s with
  | nil => rfl
  | cons c t ih =>
    have ht : splitSep sep t = [t] := ih (fun d hd => h d (by simp [hd]))
    simp [splitSep, ht, h c (by simp)]

theorem starMatch_iff (m : Str → Bool) (s : Str) :
    starMatch m s = true ↔
      ∃ n, (∀ c ∈ s.take n, c ≠ '\n') ∧ m (s.drop n) = true := by
  induction s with
  | nil =>
    rw [show starMatch m [] = m [] from rfl]
    constructor
    · intro h
      exact ⟨0, by simp, by simpa using h⟩
    · rintro ⟨n, _, hm⟩
      simpa using hm
  | cons c t ih =>
    rw [show starMatch m (c :: t) =
          (m (c :: t) || (c ≠ '\n' && starMatch m t)) from rfl]
    simp only [Bool.or_eq_true, Bool.and_eq_true, decide_eq_true_eq, ih]
    constructor
    · rintro (h | ⟨hc, n, hnl, hm⟩)
      · exact ⟨0, by simp, h⟩
      · refine ⟨n + 1, ?_, hm⟩
        intro d hd
        rw [List.take_succ_cons] at hd
        rcases List.mem_cons.mp hd with hd | hd
        · exact hd ▸ hc
        · exact hnl d hd
    · rintro ⟨n, hnl, hm⟩
      cases n with
      | zero => exact Or.inl hm
      | succ n =>
        refine Or.inr ⟨hnl c (by rw [List.take_succ_cons]; simp), n, ?_, hm⟩
        intro d hd
        exact hnl d (by rw [List.take_succ_cons]; exact List.mem_cons_of_mem _ hd)

theorem glob_lit {lit : Str} (h : ∀ c ∈ lit, c ≠ '*' ∧ c ≠ '?') :
    ∀ t : Str, globMatch lit t = true ↔ lowerStr lit = lowerStr t := by
  induction lit with
  | nil =>
    intro t
    rw [show globMatch [] t = t.isEmpty from rfl]
    cases t with
    | nil => simp [lowerStr]
    | cons d t' => simp [lowerStr]
  | cons c ps ih =>
    intro t
    have hc := h c (by simp)
    cases t with
    | nil =>
      rw [show globMatch (c :: ps) [] =
            (if c = '*' then starMatch (globMatch ps) [] else false) from rfl,
          if_neg hc.1]
      simp [lowerStr]
    | cons d t' =>
      have iht := ih (fun e he => h e (by simp [he])) t'
      rw [show globMatch (c :: ps) (d :: t') =
            (if c = '*' then starMatch (globMatch ps) (d :: t')
             else ((if c = '?' then (d ≠ '\n' : Bool)
                    else c.toLower = d.toLower) && globMatch ps t')) from rfl,
          if_neg hc.1]
      simp [hc.2, lowerStr, iht, Bool.and_eq_true, decide_eq_true_eq]

theorem glob_lit_star {lit : Str} (h : ∀ c ∈ lit, c ≠ '*' ∧ c ≠ '?') :
    ∀ t : Str, globMatch (lit ++ ['*']) t = true ↔
      (lowerStr lit <+: lowerStr t ∧ ∀ c ∈ t.drop lit.length, c ≠ '\n') := by
  induction lit with
  | nil =>
    intro t
    rw [show globMatch (([] : Str) ++ ['*']) t = starMatch (globMatch []) t from rfl,
        starMatch_iff]
    simp only [lowerStr, List.map_nil, List.length_nil, List.drop_zero]
    constructor
    · rintro ⟨n, hnl, hemp⟩
      refine ⟨List.nil_prefix, ?_⟩
      intro c hct
      have hsplit : t = t.take n ++ t.drop n := (List.take_append_drop n t).symm
      have hdrop : t.drop n = [] := by
        rw [show globMatch [] (t.drop n) = (t.drop n).isEmpty from rfl] at hemp
        exact List.isEmpty_iff.mp hemp
      rw [hsplit, hdrop, List.append_nil] at hct
      exact hnl c hct
    · rintro ⟨_, hnl⟩
      refine ⟨t.length,
        fun c hc => hnl c (List.mem_of_mem_take hc), ?_⟩
      rw [List.drop_length]
      rfl
  | cons c ps ih =>
    intro t
    have hc := h c (by simp)
    have ihp := ih (fun e he => h e (by simp [he]))
    cases t with
    | nil =>
      rw [show globMatch ((c :: ps) ++ ['*']) [] =
            (if c = '*' then starMatch (globMatch (ps ++ ['*'])) ([] : Str)
             else false) from rfl,
          if_neg hc.1]
      simp [lowerStr, List.prefix_nil]
    | cons d t' =>
      rw [show globMatch ((c :: ps) ++ ['*']) (d :: t') =
            (if c = '*' then starMatch (globMatch (ps ++ ['*'])) (d :: t')
             else ((if c = '?' then (d ≠ '\n' : Bool)
                    else c.toLower = d.toLower) &&
               globMatch (ps ++ ['*']) t')) from rfl,
          if_neg hc.1]
      rw [show ((c :: ps) : Str).length = ps.length + 1 from List.length_cons _ _,
          List.drop_succ_cons]
      simp [hc.2, lowerStr, ihp t', List.cons_prefix_cons, Bool.and_eq_true,
        decide_eq_true_eq, and_assoc]

theorem glob_star_lit {lit : Str} (h : ∀ c ∈ lit, c ≠ '*' ∧ c ≠ '?') (t : Str) :
    globMatch ('*' :: lit) t = true ↔
      ∃ n, (∀ c ∈ t.take n, c ≠ '\n') ∧
        lowerStr lit = lowerStr (t.drop n) := by
  rw [show globMatch ('*' :: lit) t = starMatch (globMatch lit) t from rfl,
      starMatch_iff]
  constructor
  · rintro ⟨n, hnl, hn⟩
    exact ⟨n, hnl, (glob_lit h (t.drop n)).mp hn⟩
  · rintro ⟨n, hnl, heq⟩
    exact ⟨n, hnl, (glob_lit h (t.drop n)).mpr heq⟩

theorem isSubstring_iff (n : Str) : ∀ h : Str,
    isSubstring n h = true ↔ ∃ k, n <+: h.drop k := by
  intro h
  induction h with
  | nil =>
    simp only [isSubstring, List.isEmpty_iff, List.drop_nil, List.prefix_nil]
    exact ⟨fun hn => ⟨0, hn⟩, fun ⟨_, hk⟩ => hk⟩
  | cons c t ih =>
    rw [show isSubstring n (c :: t) =
          (List.isPrefixOf n (c :: t) || isSubstring n t) from rfl]
    simp only [Bool.or_eq_true, List.isPrefixOf_iff_prefix, ih]
    constructor
    · rintro (hp | ⟨k, hk⟩)
      · exact ⟨0, hp⟩
      · exact ⟨k + 1, hk⟩
    · rintro ⟨k, hk⟩
      cases k with
      | zero => exact Or.inl hk
      | succ k => exact Or.inr ⟨k, hk⟩

theorem isSubstring_of_prefix {n h : Str} (hp : n <+: h) :
    isSubstring n h = true := by
  cases h with
  | nil =>
    have : n = [] := List.prefix_nil.mp hp
    simp [this, isSubstring]
  | cons c t =>
    rw [show isSubstring n (c :: t) =
          (List.isPrefixOf n (c :: t) || isSubstring n t) from rfl]
    simp [List.isPrefixOf_iff_prefix, hp]

theorem glob_star_lit_star {lit : Str} (h : ∀ c ∈ lit, c ≠ '*' ∧ c ≠ '?')
    (t : Str) (ht : ∀ c ∈ t, c ≠ '\n') :
    globMatch ('*' :: (lit ++ ['*'])) t = true ↔
      isSubstring (lowerStr lit) (lowerStr t) = true := by
  rw [show globMatch ('*' :: (lit ++ ['*'])) t =
        starMatch (globMatch (lit ++ ['*'])) t from rfl,
      starMatch_iff, isSubstring_iff]
  constructor
  · rintro ⟨n, _, hn⟩
    refine ⟨n, ?_⟩
    have hpre := ((glob_lit_star h (t.drop n)).mp hn).1
    rwa [show lowerStr (t.drop n) = (lowerStr t).drop n from List.map_drop _ _ _]
      at hpre
  · rintro ⟨k, hk⟩
    refine ⟨k, fun c hc => ht c (List.mem_of_mem_take hc),
      (glob_lit_star h (t.drop k)).mpr ⟨?_, ?_⟩⟩
    · rwa [show lowerStr (t.drop k) = (lowerStr t).drop k from List.map_drop _ _ _]
    · intro c hc
      exact ht c (List.mem_of_mem_drop (List.mem_of_mem_drop hc))

/-! ## Characterizing the pattern compiler on clean (wildcard-free) patterns -/

theorem normalizePattern_clean {s : Str} (hne : trim s ≠ [])
    (hw : ∀ c ∈ trim s, c ≠ '*' ∧ c ≠ '?') :
    normalizePattern (trim s) = '*' :: (trim s ++ ['*']) := by
  unfold normalizePattern
  rw [trim_idem]
  have hE : (trim s).isEmpty = false := List.isEmpty_eq_false.mpr hne
  have hstar : '*' ∉ trim s := fun hmem => (hw '*' hmem).1 rfl
  have hq : '?' ∉ trim s := fun hmem => (hw '?' hmem).2 rfl
  simp [hE, hstar, hq]

theorem count_clean_wrapped {s : Str} (hw : ∀ c ∈ trim s, c ≠ '*' ∧ c ≠ '?') :
    ('*' :: (trim s ++ ['*'])).count '*' = 2 ∧
    ('*' :: (trim s ++ ['*'])).count '?' = 0 := by
  have hstar : (trim s).count '*' = 0 :=
    List.count_eq_zero.mpr (fun hmem => (hw '*' hmem).1 rfl)
  have hq : (trim s).count '?' = 0 :=
    List.count_eq_zero.mpr (fun hmem => (hw '?' hmem).2 rfl)
  constructor
  · simp [List.count_cons, List.count_append, hstar, List.count_singleton]
  · simp [List.count_cons, List.count_append, hq, List.count_singleton]

theorem compileOne_clean {s : Str} (hne : trim s ≠ [])
    (hw : ∀ c ∈ trim s, c ≠ '*' ∧ c ≠ '?') :
    compileOne s =
      some (if ('*' :: (trim s ++ ['*'])).length > 1000
            then ('*' :: (trim s ++ ['*'])).take 1000
            else '*' :: (trim s ++ ['*'])) := by
  have hE : (trim s).isEmpty = false := List.isEmpty_eq_false.mpr hne
  have hcnt := count_clean_wrapped hw
  unfold compileOne
  simp only [hE, Bool.false_eq_true, if_false, normalizePattern_clean hne hw,
    hcnt.1, hcnt.2]
  norm_num

theorem compilePatterns_clean {s : Str} (hne : trim s ≠ [])
    (hw : ∀ c ∈ s, c ≠ '*' ∧ c ≠ '?' ∧ c ≠ ',') :
    compilePatterns (some s) =
      [if ('*' :: (trim s ++ ['*'])).length > 1000
       then ('*' :: (trim s ++ ['*'])).take 1000
       else '*' :: (trim s ++ ['*'])] := by
  have hsne : s ≠ [] := by
    intro h
    rw [h] at hne
    exact hne rfl
  have hE : s.isEmpty = false := List.isEmpty_eq_false.mpr hsne
  have hsplit : splitSep ',' s = [s] :=
    splitSep_of_not_mem (fun c hc => (hw c hc).2.2)
  have hcw : ∀ c ∈ trim s, c ≠ '*' ∧ c ≠ '?' :=
    fun c hc => ⟨(hw c (mem_trim hc)).1, (hw c (mem_trim hc)).2.1⟩
  unfold compilePatterns
  simp only [hE, Bool.false_eq_true, if_false, hsplit, List.filterMap_cons,
    compileOne_clean hne hcw, List.filterMap_nil]

/-! ## Claim C5 -/

/-- C5 (counterexample): the claim "for every non-empty wildcard-free pattern
string `s`, the compiled matcher matches exactly the strings containing `s`" fails
twice.  At `s` = 999 copies of `'a'`, normalization wraps it to a 1001-character
`*s*`, the ReDoS length ceiling truncates that to 1000 characters, cutting off
the trailing `*`, and the resulting matcher `*s` rejects the string `s ++ "b"`
even though it contains `s` as a substring.  And at `s = "ads"`, the matcher
`^.*?ads.*?$` (compiled without `re.DOTALL`, so `.` never matches a newline)
rejects `"x\nads"` even though it contains `"ads"` as a substring. -/
theorem compiled_matcher_substring_cex :
    compilePatterns (some (List.replicate 999 'a')) =
      ['*' :: List.replicate 999 'a'] ∧
    isSubstring (lowerStr (List.replicate 999 'a'))
      (lowerStr (List.replicate 999 'a' ++ ['b'])) = true ∧
    matchesCompiledPatterns (some (List.replicate 999 'a' ++ ['b']))
      (compilePatterns (some (List.replicate 999 'a'))) = false ∧
    isSubstring (lowerStr ['a', 'd', 's'])
      (lowerStr ['x', '\n', 'a', 'd', 's']) = true ∧
    matchesCompiledPatterns (some ['x', '\n', 'a', 'd', 's'])
      (compilePatterns (some ['a', 'd', 's'])) = false := by
  have hmem : ∀ c ∈ List.replicate 999 'a', c = 'a' :=
    fun c hc => (List.mem_replicate.mp hc).2
  have htrim : trim (List.replicate 999 'a') = List.replicate 999 'a' :=
    trim_eq_self_of_forall (fun c hc => by rw [hmem c hc]; rfl)
  have hne : trim (List.replicate 999 'a') ≠ [] := by
    rw [htrim]
    intro h
    have h' := congrArg List.length h
    rw [List.length_replicate, List.length_nil] at h'
    exact absurd h' (by decide)
  have hw : ∀ c ∈ List.replicate 999 'a', c ≠ '*' ∧ c ≠ '?' ∧ c ≠ ',' := by
    intro c hc
    rw [hmem c hc]
    refine ⟨by decide, by decide, by decide⟩
  have hlow : lowerStr (List.replicate 999 'a') = List.replicate 999 'a' := by
    rw [lowerStr, List.map_replicate]
    rfl
  have hlowb : lowerStr (List.replicate 999 'a' ++ ['b']) =
      List.replicate 999 'a' ++ ['b'] := by
    rw [lowerStr, List.map_append, List.map_replicate]
    rfl
  have hlen : ('*' :: (trim (List.replicate 999 'a') ++ ['*'])).length > 1000 := by
    rw [htrim, List.length_cons, List.length_append, List.length_replicate,
      List.length_singleton]
    omega
  have hcp : compilePatterns (some (List.replicate 999 'a')) =
      ['*' :: List.replicate 999 'a'] := by
    rw [compilePatterns_clean hne hw, if_pos hlen, htrim,
      show (1000 : ℕ) = 999 + 1 from rfl, List.take_succ_cons,
      List.take_left'
        (by rw [List.length_replicate] : (List.replicate 999 'a').length = 999)]
  refine ⟨hcp, ?_, ?_, by decide, by decide⟩
  · rw [hlow, hlowb]
    exact isSubstring_of_prefix (List.prefix_append _ _)
  · rw [hcp]
    have htne : (List.replicate 999 'a' ++ ['b']).isEmpty = false := by
      rw [List.isEmpty_eq_false]
      intro h
      have h' := congrArg List.length h
      rw [List.length_append, List.length_replicate, List.length_singleton,
        List.length_nil] at h'
      omega
    have hstep : matchesCompiledPatterns (some (List.replicate 999 'a' ++ ['b']))
        ['*' :: List.replicate 999 'a'] =
        globMatch ('*' :: List.replicate 999 'a')
          (List.replicate 999 'a' ++ ['b']) := by
      unfold matchesCompiledPatterns
      simp only [Option.getD_some, List.isEmpty_cons, htne, Bool.or_self,
        Bool.false_eq_true, if_false, List.any_cons, List.any_nil, Bool.or_false]
    rw [hstep]
    cases hg : globMatch ('*' :: List.replicate 999 'a')
        (List.replicate 999 'a' ++ ['b']) with
    | false => rfl
    | true =>
      exfalso
      have hclean : ∀ c ∈ List.replicate 999 'a', c ≠ '*' ∧ c ≠ '?' :=
        fun c hc => by
          rw [hmem c hc]
          exact ⟨by decide, by decide⟩
      obtain ⟨n, _, heq⟩ := (glob_star_lit hclean _).mp hg
      rw [hlow] at heq
      have hld : lowerStr ((List.replicate 999 'a' ++ ['b']).drop n) =
          (lowerStr (List.replicate 999 'a' ++ ['b'])).drop n :=
        List.map_drop _ _ _
      rw [hld, hlowb] at heq
      have hsuf : List.replicate 999 'a' <:+ List.replicate 999 'a' ++ ['b'] := by
        nth_rewrite 1 [heq]
        exact List.drop_suffix _ _
      obtain ⟨u, hu⟩ := hsuf
      have h1 : (u ++ List.replicate 999 'a').getLast? = some 'a' := by
        rw [show (999 : ℕ) = 998 + 1 from rfl, List.replicate_succ',
          ← List.append_assoc, List.getLast?_concat]
      have h2 : (List.replicate 999 'a' ++ ['b']).getLast? = some 'b' :=
        List.getLast?_concat _
      rw [hu] at h1
      rw [h1] at h2
      exact absurd h2 (by decide)

/-- C5 (amended): for every pattern string `s` that is non-empty after trimming,
contains no `*`, `?` or `,`, and whose trimmed length is at most 998 (so that the
wrapped `*s*` stays within the 1000-character ceiling), the compiled matcher
matches a newline-free string exactly when it contains the trimmed pattern as a
case-insensitive substring.  (Longer patterns lose the trailing `*` to
truncation; a comma splits the string into several patterns; and on strings
containing a newline the matcher can reject despite containment, because the
compiled `.`-based wildcards never match `'\n'` without `re.DOTALL`.) -/
theorem compiled_matcher_substring (s : Str) (hne : trim s ≠ [])
    (hw : ∀ c ∈ s, c ≠ '*' ∧ c ≠ '?' ∧ c ≠ ',')
    (hlen : (trim s).length ≤ 998) :
    compilePatterns (some s) = ['*' :: (trim s ++ ['*'])] ∧
    ∀ t : Str, (∀ c ∈ t, c ≠ '\n') →
      matchesCompiledPatterns (some t) (compilePatterns (some s)) =
        isSubstring (lowerStr (trim s)) (lowerStr t) := by
  have hcw : ∀ c ∈ trim s, c ≠ '*' ∧ c ≠ '?' :=
    fun c hc => ⟨(hw c (mem_trim hc)).1, (hw c (mem_trim hc)).2.1⟩
  have hlen' : ¬('*' :: (trim s ++ ['*'])).length > 1000 := by
    rw [List.length_cons, List.length_append, List.length_singleton]
    omega
  have hcp : compilePatterns (some s) = ['*' :: (trim s ++ ['*'])] := by
    rw [compilePatterns_clean hne hw, if_neg hlen']
  refine ⟨hcp, fun t ht => ?_⟩
  rw [hcp]
  by_cases htn : t = []
  · subst htn
    have hL : matchesCompiledPatterns (some []) ['*' :: (trim s ++ ['*'])] =
        false := by
      unfold matchesCompiledPatterns
      simp only [Option.getD_some, List.isEmpty_cons, List.isEmpty_nil,
        Bool.or_true, if_true]
    have hR : isSubstring (lowerStr (trim s)) (lowerStr []) = false := by
      rw [show lowerStr ([] : Str) = [] from rfl,
        show isSubstring (lowerStr (trim s)) [] =
          (lowerStr (trim s)).isEmpty from rfl]
      exact List.isEmpty_eq_false.mpr (fun h => hne (List.map_eq_nil_iff.mp h))
    rw [hL, hR]
  · have hE : t.isEmpty = false := List.isEmpty_eq_false.mpr htn
    have hL : matchesCompiledPatterns (some t) ['*' :: (trim s ++ ['*'])] =
        globMatch ('*' :: (trim s ++ ['*'])) t := by
      unfold matchesCompiledPatterns
      simp [hE]
    rw [hL, Bool.eq_iff_iff]
    exact glob_star_lit_star hcw t ht

/-- Witness for C5 (amended) at the concrete pattern `"ads"` and the
newline-free value `"xADSy"`. -/
theorem compiled_matcher_substring_witness :
    matchesCompiledPatterns (some ['x', 'A', 'D', 'S', 'y'])
      (compilePatterns (some ['a', 'd', 's'])) =
      isSubstring (lowerStr (trim ['a', 'd', 's']))
        (lowerStr ['x', 'A', 'D', 'S', 'y']) :=
  (compiled_matcher_substring ['a', 'd', 's'] (by decide) (by decide)
    (by decide)).2 ['x', 'A', 'D', 'S', 'y'] (by decide)

/-! ## Claims C2, C3, C1: the cooldown gate -/

theorem hasRecentAlert_iff (db : HistDB) (ruleId : Nat) (start : Int) :
    hasRecentAlert db ruleId start = true ↔
      ∃ r ∈ db.rows, r.alert_rule_id = ruleId ∧ start ≤ r.triggered_at := by
  unfold hasRecentAlert
  simp [List.any_eq_true, decide_eq_true_eq]

/-- C2: executed without interference (no storage error), `try_record_alert`
returns `None` and creates no row when `cooldown_minutes > 0` and an
`AlertHistory` row for the rule was triggered within the window; otherwise (no
such row, or cooldown 0) it appends a fresh row with `notification_sent = false`
and `notification_error = None` and returns that row's id. -/
theorem try_record_alert_gate (db : HistDB) (queryId ruleId : Nat)
    (cd now : Int) :
    (0 < cd →
      (∃ r ∈ db.rows, r.alert_rule_id = ruleId ∧ now - cd ≤ r.triggered_at) →
      tryRecordAlert db queryId ruleId cd now false = (none, db)) ∧
    ((cd = 0 ∨ ∀ r ∈ db.rows, r.alert_rule_id = ruleId →
        r.triggered_at < now - cd) →
      tryRecordAlert db queryId ruleId cd now false =
        (some db.nextId,
         { rows := db.rows ++
             [{ id := db.nextId, alert_rule_id := ruleId, query_id := queryId,
                triggered_at := now, notification_sent := false,
                notification_error := none }],
           nextId := db.nextId + 1 })) := by
  constructor
  · intro hcd hex
    unfold tryRecordAlert
    rw [if_pos hcd, if_neg Bool.false_ne_true,
      if_pos ((hasRecentAlert_iff db ruleId (now - cd)).mpr hex)]
  · intro hno
    unfold tryRecordAlert recordRow
    rcases hno with h0 | hall
    · subst h0
      rw [if_neg (by omega : ¬(0 : Int) < 0)]
    · by_cases hcd : 0 < cd
      · have hfalse : hasRecentAlert db ruleId (now - cd) = false := by
          rw [← Bool.not_eq_true, hasRecentAlert_iff]
          rintro ⟨r, hr, h1, h2⟩
          exact absurd h2 (not_le.mpr (hall r hr h1))
        rw [if_pos hcd, if_neg Bool.false_ne_true,
          if_neg (by rw [hfalse]; exact Bool.false_ne_true)]
      · rw [if_neg hcd]

/-- Witness for C2: a fresh table accepts the alert; the table holding that row
rejects a second call in the same window. -/
theorem try_record_alert_gate_witness :
    tryRecordAlert { rows := [], nextId := 0 } 7 3 5 100 false =
      (some 0,
       { rows := [{ id := 0, alert_rule_id := 3, query_id := 7,
                    triggered_at := 100, notification_sent := false,
                    notification_error := none }],
         nextId := 1 }) ∧
    tryRecordAlert
      { rows := [{ id := 0, alert_rule_id := 3, query_id := 7,
                   triggered_at := 100, notification_sent := false,
                   notification_error := none }], nextId := 1 }
      8 3 5 100 false =
      (none,
       { rows := [{ id := 0, alert_rule_id := 3, query_id := 7,
                    triggered_at := 100, notification_sent := false,
                    notification_error := none }], nextId := 1 }) :=
  ⟨(try_record_alert_gate { rows := [], nextId := 0 } 7 3 5 100).2
      (Or.inr (by intro r hr; simp at hr)),
   (try_record_alert_gate _ 8 3 5 100).1 (by decide) (by decide)⟩

/-- C3 (counterexample): when the cooldown lookup inside `try_record_alert`
raises a storage error (with `cooldown_minutes = 5 > 0` and an empty history
table), the call returns `None` and creates no `AlertHistory` row, contradicting
the claim that the alert is still recorded and its identifier returned. -/
theorem cooldown_fail_open_cex :
    tryRecordAlert { rows := [], nextId := 0 } 7 3 5 100 true =
      (none, { rows := [], nextId := 0 }) ∧
    (tryRecordAlert { rows := [], nextId := 0 } 7 3 5 100 true).2.rows = [] := by
  constructor <;> rfl

/-- C3 (amended): a storage error in the standalone cooldown pre-check
`_is_in_cooldown` is treated as "gate open" — it logs and returns `False`, so the
batch proceeds instead of being dropped at the pre-check; but a storage error
during `try_record_alert`'s own cooldown lookup aborts that call: it returns
`None` and creates no row (the alert is dropped, not recorded). -/
theorem cooldown_fail_open (db : HistDB) (q ruleId : Nat) (cd now : Int)
    (hcd : 0 < cd) :
    isInCooldown db ruleId cd now true = false ∧
    tryRecordAlert db q ruleId cd now true = (none, db) := by
  constructor
  · unfold isInCooldown
    by_cases h : cd ≤ 0
    · rw [if_pos h]
    · rw [if_neg h, if_pos rfl]
  · unfold tryRecordAlert
    rw [if_pos hcd, if_pos rfl]

/-- Witness for C3 (amended). -/
theorem cooldown_fail_open_witness :
    isInCooldown { rows := [], nextId := 0 } 3 5 100 true = false ∧
    tryRecordAlert { rows := [], nextId := 0 } 7 3 5 100 true =
      (none, { rows := [], nextId := 0 }) :=
  cooldown_fail_open { rows := [], nextId := 0 } 7 3 5 100 (by decide)

theorem runTryRecordSeq_closed (db : HistDB) (qs : List Nat) (ruleId : Nat)
    (cd now : Int) (hcd : 0 < cd)
    (h : hasRecentAlert db ruleId (now - cd) = true) :
    runTryRecordSeq db qs ruleId cd now = (List.replicate qs.length none, db) := by
  induction qs with
  | nil => rfl
  | cons q qs ih =>
    have hstep : tryRecordAlert db q ruleId cd now false = (none, db) := by
      unfold tryRecordAlert
      rw [if_pos hcd, if_neg Bool.false_ne_true, if_pos h]
    unfold runTryRecordSeq
    simp [hstep, ih, List.replicate_succ]

theorem countP_replicate_none (n : Nat) :
    (List.replicate n (none : Option Nat)).countP (fun o => o.isSome) = 0 := by
  induction n with
  | zero => rfl
  | succ n ih =>
    rw [List.replicate_succ, List.countP_cons]
    simp [ih]

/-- C1: N concurrent `try_record_alert` calls for the same rule id are serialized
by the single per-rule lock from `_get_rule_lock` (all callers for one rule obtain
the same `asyncio.Lock`), so the concurrent execution equals some sequential order
of the atomic check-and-insert sections, all within the window; starting with no
row in the window, exactly the first serialized call creates the row and returns
its id, and the other N−1 return `None` and create nothing. -/
theorem concurrent_try_record_exactly_one (db : HistDB) (q : Nat) (qs : List Nat)
    (ruleId : Nat) (cd now : Int) (hcd : 0 < cd)
    (hclean : hasRecentAlert db ruleId (now - cd) = false) :
    (runTryRecordSeq db (q :: qs) ruleId cd now).1 =
      some db.nextId :: List.replicate qs.length none ∧
    (runTryRecordSeq db (q :: qs) ruleId cd now).2.rows =
      db.rows ++
        [{ id := db.nextId, alert_rule_id := ruleId, query_id := q,
           triggered_at := now, notification_sent := false,
           notification_error := none }] ∧
    (runTryRecordSeq db (q :: qs) ruleId cd now).1.countP
      (fun o => o.isSome) = 1 := by
  have hfirst : tryRecordAlert db q ruleId cd now false =
      (some db.nextId,
       { rows := db.rows ++
           [{ id := db.nextId, alert_rule_id := ruleId,
              query_id := q, triggered_at := now, notification_sent := false,
              notification_error := none }],
         nextId := db.nextId + 1 }) := by
    unfold tryRecordAlert recordRow
    rw [if_pos hcd, if_neg Bool.false_ne_true,
      if_neg (by rw [hclean]; exact Bool.false_ne_true)]
  have hdb' : hasRecentAlert
      { rows := db.rows ++
          [{ id := db.nextId, alert_rule_id := ruleId,
             query_id := q, triggered_at := now, notification_sent := false,
             notification_error := none }],
        nextId := db.nextId + 1 } ruleId (now - cd) = true := by
    rw [hasRecentAlert_iff]
    exact ⟨{ id := db.nextId, alert_rule_id := ruleId, query_id := q,
             triggered_at := now, notification_sent := false,
             notification_error := none },
           by simp, rfl, show now - cd ≤ now by omega⟩
  have hrest := runTryRecordSeq_closed _ qs ruleId cd now hcd hdb'
  have hseq : runTryRecordSeq db (q :: qs) ruleId cd now =
      (some db.nextId :: List.replicate qs.length none,
       { rows := db.rows ++
           [{ id := db.nextId, alert_rule_id := ruleId,
              query_id := q, triggered_at := now, notification_sent := false,
              notification_error := none }],
         nextId := db.nextId + 1 }) := by
    unfold runTryRecordSeq
    rw [hfirst]
    simp only [hrest]
  rw [hseq]
  refine ⟨rfl, rfl, ?_⟩
  rw [List.countP_cons]
  simp [countP_replicate_none]

/-- Witness for C1: three serialized calls on an empty table — one id, two
`None`s, one row. -/
theorem concurrent_try_record_exactly_one_witness :
    (runTryRecordSeq { rows := [], nextId := 0 } (7 :: [8, 9]) 3 5 100).1 =
      some 0 :: List.replicate 2 none ∧
    (runTryRecordSeq { rows := [], nextId := 0 } (7 :: [8, 9]) 3 5 100).2.rows =
      [] ++
        [{ id := 0, alert_rule_id := 3, query_id := 7, triggered_at := 100,
           notification_sent := false, notification_error := none }] ∧
    (runTryRecordSeq { rows := [], nextId := 0 } (7 :: [8, 9]) 3 5 100).1.countP
      (fun o => o.isSome) = 1 :=
  concurrent_try_record_exactly_one { rows := [], nextId := 0 } 7 [8, 9] 3 5 100
    (by decide) (by decide)

/-! ## Claim C9: pattern-cache invalidation -/

theorem assocFind_filter_self {α : Type} (c : List (Nat × α)) (rid : Nat) :
    assocFind (c.filter (fun p => p.1 ≠ rid)) rid = none := by
  induction c with
  | nil => rfl
  | cons hd tl ih =>
    obtain ⟨k', v⟩ := hd
    by_cases h : k' = rid
    · subst h
      rw [List.filter_cons, if_neg (by simp)]
      exact ih
    · simp only [List.filter_cons]
      rw [if_pos (by simp [h]), show assocFind ((k', v) ::
          tl.filter (fun p => p.1 ≠ rid)) rid =
            (if k' = rid then some v
             else assocFind (tl.filter (fun p => p.1 ≠ rid)) rid) from rfl,
        if_neg h, ih]

theorem assocFind_filter_ne {α : Type} (c : List (Nat × α)) {rid k : Nat}
    (hk : k ≠ rid) :
    assocFind (c.filter (fun p => p.1 ≠ rid)) k = assocFind c k := by
  induction c with
  | nil => rfl
  | cons hd tl ih =>
    obtain ⟨k', v⟩ := hd
    by_cases h : k' = rid
    · subst h
      have hkk : ¬k' = k := fun hh => hk hh.symm
      simp only [List.filter_cons]
      rw [if_neg (by simp),
        show assocFind ((k', v) :: tl) k =
          (if k' = k then some v else assocFind tl k) from rfl,
        if_neg hkk, ih]
    · simp only [List.filter_cons]
      rw [if_pos (by simp [h]),
        show assocFind ((k', v) :: tl.filter (fun p => p.1 ≠ rid)) k =
          (if k' = k then some v
           else assocFind (tl.filter (fun p => p.1 ≠ rid)) k) from rfl,
        show assocFind ((k', v) :: tl) k =
          (if k' = k then some v else assocFind tl k) from rfl, ih]

theorem assocFind_eq_none_iff {α : Type} (c : List (Nat × α)) (k : Nat) :
    assocFind c k = none ↔ ∀ p ∈ c, p.1 ≠ k := by
  induction c with
  | nil => simp [assocFind]
  | cons hd tl ih =>
    obtain ⟨k', v⟩ := hd
    rw [show assocFind ((k', v) :: tl) k =
        (if k' = k then some v else assocFind tl k) from rfl]
    by_cases h : k' = k
    · simp [h]
    · simp [h, ih]

/-- C9: `invalidate_cache(rule_id)` drops exactly that entry (a no-op when the id
is not cached), leaves every other entry (and their order) unchanged,
`invalidate_cache(None)` clears the whole cache, and after invalidating a rule
the next `_get_cached_patterns` for it recompiles from the rule's current
pattern fields instead of returning a stale cached value. -/
theorem invalidate_cache_semantics (st : PatternCache) (rid : Nat)
    (rule : AlertRule) :
    (invalidateCache st (some rid)).pattern_cache =
      st.pattern_cache.filter (fun p => p.1 ≠ rid) ∧
    assocFind (invalidateCache st (some rid)).pattern_cache rid = none ∧
    (∀ k, k ≠ rid →
      assocFind (invalidateCache st (some rid)).pattern_cache k =
        assocFind st.pattern_cache k) ∧
    (assocFind st.pattern_cache rid = none → invalidateCache st (some rid) = st) ∧
    (invalidateCache st none).pattern_cache = [] ∧
    (getCachedPatterns (invalidateCache st (some rule.id)) rule).1 =
      { domain := compilePatterns rule.domain_pattern,
        client_ip := compilePatterns rule.client_ip_pattern,
        client_hostname := compilePatterns rule.client_hostname_pattern } := by
  refine ⟨rfl, assocFind_filter_self _ _,
    fun k hk => assocFind_filter_ne _ hk, ?_, rfl, ?_⟩
  · intro hnone
    have hall := (assocFind_eq_none_iff st.pattern_cache rid).mp hnone
    have hfil : st.pattern_cache.filter (fun p => p.1 ≠ rid) = st.pattern_cache :=
      List.filter_eq_self.mpr (fun p hp => by simp [hall p hp])
    show ({ st with pattern_cache :=
      st.pattern_cache.filter (fun p => p.1 ≠ rid) } : PatternCache) = st
    rw [hfil]
  · have hmiss : assocFind
        (invalidateCache st (some rule.id)).pattern_cache rule.id = none :=
      assocFind_filter_self _ _
    unfold getCachedPatterns
    rw [hmiss]

/-- Witness for C9: after invalidating rule 1 in a cache that held a stale empty
entry for it, the next get returns the freshly compiled patterns. -/
theorem invalidate_cache_semantics_witness :
    (getCachedPatterns
      (invalidateCache
        { pattern_cache := [(1, emptyPatternSet)], max_pattern_cache := 500 }
        (some 1))
      { id := 1, name := [], domain_pattern := some ['a', 'd', 's'],
        client_ip_pattern := none, client_hostname_pattern := none,
        exclude_domains := none, cooldown_minutes := 5, enabled := true }).1 =
      { domain := compilePatterns (some ['a', 'd', 's']),
        client_ip := compilePatterns none,
        client_hostname := compilePatterns none } :=
  (invalidate_cache_semantics
    { pattern_cache := [(1, emptyPatternSet)], max_pattern_cache := 500 } 1
    { id := 1, name := [], domain_pattern := some ['a', 'd', 's'],
      client_ip_pattern := none, client_hostname_pattern := none,
      exclude_domains := none, cooldown_minutes := 5,
      enabled := true }).2.2.2.2.2

/-! ## Claims C10 and C4: match evaluation -/

theorem matchesCompiledPatterns_empty_value {v : Option Str} {pats : List Str}
    (hv : v = none ∨ v = some []) (hp : pats ≠ []) :
    matchesCompiledPatterns v pats = false := by
  unfold matchesCompiledPatterns
  rcases hv with h | h <;> subst h <;>
    simp [List.isEmpty_eq_false.mpr hp]

theorem matchesCompiledPatterns_iff (v : Option Str) (pats : List Str) :
    matchesCompiledPatterns v pats = true ↔
      (pats = [] ∨
        ∃ s, v = some s ∧ s ≠ [] ∧ ∃ p ∈ pats, globMatch p s = true) := by
  unfold matchesCompiledPatterns
  cases hp : pats with
  | nil => simp
  | cons p0 ps =>
    cases v with
    | none => simp
    | some s =>
      cases s with
      | nil => simp
      | cons c t =>
        simp [List.any_eq_true]

theorem ruleMatches_eq (jsonArr : Str → Option (List Str)) (q : Query)
    (rule : AlertRule) (ps : PatternSet) :
    ruleMatches jsonArr q rule ps =
      (!shouldExclude jsonArr q.domain rule.exclude_domains &&
       (ps.domain.isEmpty || matchesCompiledPatterns (some q.domain) ps.domain) &&
       (ps.client_ip.isEmpty ||
         matchesCompiledPatterns (some q.client_ip) ps.client_ip) &&
       (ps.client_hostname.isEmpty ||
         matchesCompiledPatterns q.client_hostname ps.client_hostname)) := by
  unfold ruleMatches
  cases hex : shouldExclude jsonArr q.domain rule.exclude_domains
  · cases h1 : ps.domain.isEmpty <;>
      cases h2 : ps.client_ip.isEmpty <;>
        cases h3 : ps.client_hostname.isEmpty <;>
          cases m1 : matchesCompiledPatterns (some q.domain) ps.domain <;>
            cases m2 : matchesCompiledPatterns (some q.client_ip) ps.client_ip <;>
              cases m3 : matchesCompiledPatterns q.client_hostname
                  ps.client_hostname <;>
                simp [h1, h2, h3, m1, m2, m3]
  · simp [hex]

theorem evaluateQueryAgainstRules_singleton (jsonArr : Str → Option (List Str))
    (q : Query) (rule : AlertRule) (cached : Nat → PatternSet) :
    evaluateQueryAgainstRules jsonArr q [rule] cached =
      (if ruleMatches jsonArr q rule (cached rule.id) then [rule.id] else []) := by
  unfold evaluateQueryAgainstRules
  cases h : ruleMatches jsonArr q rule (cached rule.id) <;> simp [h]

/-- C10: a query whose value for a field is absent (`None`) or the empty string
never matches a rule that has at least one compiled matcher for that field —
the guard `if not patterns or not value` in `_matches_compiled_patterns` rejects
before any regex runs, even though the matcher compiled from the bare pattern
`*` does match the empty string. -/
theorem empty_field_blocks_match (jsonArr : Str → Option (List Str)) (q : Query)
    (rule : AlertRule) (ps : PatternSet) :
    (q.domain = [] → ps.domain ≠ [] →
      ruleMatches jsonArr q rule ps = false ∧
      evaluateQueryAgainstRules jsonArr q [rule] (fun _ => ps) = []) ∧
    (q.client_ip = [] → ps.client_ip ≠ [] →
      ruleMatches jsonArr q rule ps = false ∧
      evaluateQueryAgainstRules jsonArr q [rule] (fun _ => ps) = []) ∧
    ((q.client_hostname = none ∨ q.client_hostname = some []) →
      ps.client_hostname ≠ [] →
      ruleMatches jsonArr q rule ps = false ∧
      evaluateQueryAgainstRules jsonArr q [rule] (fun _ => ps) = []) ∧
    compilePatterns (some ['*']) = [['*']] ∧
    globMatch ['*'] [] = true ∧
    matchesCompiledPatterns (some []) [['*']] = false := by
  have hstep : ∀ hfalse : ruleMatches jsonArr q rule ps = false,
      evaluateQueryAgainstRules jsonArr q [rule] (fun _ => ps) = [] := by
    intro hfalse
    rw [evaluateQueryAgainstRules_singleton, hfalse]
    simp
  refine ⟨?_, ?_, ?_, by decide, by decide, by decide⟩
  · intro hv hp
    have hmc : matchesCompiledPatterns (some q.domain) ps.domain = false :=
      matchesCompiledPatterns_empty_value (Or.inr (by rw [hv])) hp
    have hfalse : ruleMatches jsonArr q rule ps = false := by
      rw [ruleMatches_eq, hmc, List.isEmpty_eq_false.mpr hp]
      simp
    exact ⟨hfalse, hstep hfalse⟩
  · intro hv hp
    have hmc : matchesCompiledPatterns (some q.client_ip) ps.client_ip = false :=
      matchesCompiledPatterns_empty_value (Or.inr (by rw [hv])) hp
    have hfalse : ruleMatches jsonArr q rule ps = false := by
      rw [ruleMatches_eq, hmc, List.isEmpty_eq_false.mpr hp]
      simp
    exact ⟨hfalse, hstep hfalse⟩
  · intro hv hp
    have hmc : matchesCompiledPatterns q.client_hostname ps.client_hostname =
        false := matchesCompiledPatterns_empty_value hv hp
    have hfalse : ruleMatches jsonArr q rule ps = false := by
      rw [ruleMatches_eq, hmc, List.isEmpty_eq_false.mpr hp]
      simp
    exact ⟨hfalse, hstep hfalse⟩

/-- Witness for C10: a query with no client hostname against a rule whose only
hostname matcher is the bare `*`. -/
theorem empty_field_blocks_match_witness :
    ruleMatches (fun _ => none)
      { id := 1, domain := ['x'], client_ip := ['i'], client_hostname := none,
        timestamp := 0, server := [] }
      { id := 1, name := [], domain_pattern := none, client_ip_pattern := none,
        client_hostname_pattern := some ['*'], exclude_domains := none,
        cooldown_minutes := 5, enabled := true }
      { domain := [], client_ip := [], client_hostname := [['*']] } = false ∧
    evaluateQueryAgainstRules (fun _ => none)
      { id := 1, domain := ['x'], client_ip := ['i'], client_hostname := none,
        timestamp := 0, server := [] }
      [{ id := 1, name := [], domain_pattern := none, client_ip_pattern := none,
         client_hostname_pattern := some ['*'], exclude_domains := none,
         cooldown_minutes := 5, enabled := true }]
      (fun _ => { domain := [], client_ip := [], client_hostname := [['*']] }) =
      [] :=
  (empty_field_blocks_match (fun _ => none)
    { id := 1, domain := ['x'], client_ip := ['i'], client_hostname := none,
      timestamp := 0, server := [] }
    { id := 1, name := [], domain_pattern := none, client_ip_pattern := none,
      client_hostname_pattern := some ['*'], exclude_domains := none,
      cooldown_minutes := 5, enabled := true }
    { domain := [], client_ip := [], client_hostname := [['*']] }).2.2.1
    (Or.inl rfl) (by decide)

theorem shouldExclude_iff (jsonArr : Str → Option (List Str)) (domain : Str)
    (ed : Option Str) :
    shouldExclude jsonArr domain ed = true ↔
      ∃ t ∈ exclusionTerms jsonArr ed,
        isSubstring (lowerStr t) (lowerStr domain) = true := by
  unfold shouldExclude exclusionTerms
  cases ed with
  | none => simp
  | some s =>
    by_cases hE : s.isEmpty
    · simp [hE]
    · simp only [hE, Bool.false_eq_true, if_false]
      by_cases hb : (trim s).head? = some '['
      · simp only [hb, if_pos]
        cases jsonArr s with
        | none => simp
        | some l => simp [List.any_eq_true]
      · simp only [hb, if_neg, if_false]
        simp [List.any_eq_true]
        constructor
        · rintro ⟨x, hx, hne, hsub⟩
          exact ⟨trim x, ⟨⟨x, hx, rfl⟩, hne⟩, hsub⟩
        · rintro ⟨t, ⟨⟨a, ha, hat⟩, hne⟩, hsub⟩
          subst hat
          exact ⟨a, ha, hne, hsub⟩

theorem field_check_iff (v : Option Str) (pats : List Str) :
    (pats.isEmpty || matchesCompiledPatterns v pats) = true ↔
      (pats = [] ∨
        ∃ s, v = some s ∧ s ≠ [] ∧ ∃ p ∈ pats, globMatch p s = true) := by
  rw [Bool.or_eq_true, matchesCompiledPatterns_iff]
  constructor
  · rintro (h | h)
    · exact Or.inl (List.isEmpty_iff.mp h)
    · exact h
  · intro h
    exact Or.inr h

/-- C4 (counterexample): the claim's clauses (1) and (2), read literally, hold
for a rule whose only matcher is the bare `*` on the hostname field and a query
whose hostname is the empty string — the matcher `^.*?$` does fully match the
empty string — yet `_evaluate_query_against_rules` does not match the rule,
because `_matches_compiled_patterns` rejects empty values before running any
matcher. -/
theorem rule_match_characterization_cex :
    shouldExclude (fun _ => none) ['x']
      (none : Option Str) = false ∧
    compilePatterns (some ['*']) = [['*']] ∧
    (∃ p ∈ ([['*']] : List Str), globMatch p [] = true) ∧
    ruleMatches (fun _ => none)
      { id := 1, domain := ['x'], client_ip := ['i'],
        client_hostname := some [], timestamp := 0, server := [] }
      { id := 1, name := [], domain_pattern := none, client_ip_pattern := none,
        client_hostname_pattern := some ['*'], exclude_domains := none,
        cooldown_minutes := 5, enabled := true }
      { domain := [], client_ip := [], client_hostname := [['*']] } = false := by
  refine ⟨rfl, by decide, by decide, ?_⟩
  decide

/-- C4 (amended): a query matches a rule exactly when (1) its domain contains
none of the rule's exclusion terms case-insensitively (terms from the
comma-separated string, or a legacy JSON array where invalid JSON means no
exclusions; exclusion is decided before any pattern check), and (2) for each of
the three fields, either the rule has no compiled matcher for the field, or the
query's value for the field is present and **non-empty** and fully matches at
least one of the field's matchers (OR within a field, AND across fields). -/
theorem rule_match_characterization (jsonArr : Str → Option (List Str))
    (q : Query) (rule : AlertRule) (ps : PatternSet) :
    ruleMatches jsonArr q rule ps = true ↔
      ((∀ t ∈ exclusionTerms jsonArr rule.exclude_domains,
          isSubstring (lowerStr t) (lowerStr q.domain) = false) ∧
       (ps.domain = [] ∨
         (q.domain ≠ [] ∧ ∃ p ∈ ps.domain, globMatch p q.domain = true)) ∧
       (ps.client_ip = [] ∨
         (q.client_ip ≠ [] ∧
           ∃ p ∈ ps.client_ip, globMatch p q.client_ip = true)) ∧
       (ps.client_hostname = [] ∨
         (∃ s, q.client_hostname = some s ∧ s ≠ [] ∧
           ∃ p ∈ ps.client_hostname, globMatch p s = true))) := by
  rw [ruleMatches_eq]
  simp only [Bool.and_eq_true, Bool.not_eq_true']
  rw [field_check_iff, field_check_iff, field_check_iff]
  constructor
  · rintro ⟨⟨⟨hex, hd⟩, hip⟩, hh⟩
    refine ⟨?_, ?_, ?_, hh⟩
    · intro t ht
      by_contra hsub
      have : shouldExclude jsonArr q.domain rule.exclude_domains = true :=
        (shouldExclude_iff jsonArr q.domain rule.exclude_domains).mpr
          ⟨t, ht, eq_true_of_ne_false hsub⟩
      rw [this] at hex
      exact absurd hex (by simp)
    · rcases hd with h | ⟨s, hs, hne, hp⟩
      · exact Or.inl h
      · injection hs with hs'
        subst hs'
        exact Or.inr ⟨hne, hp⟩
    · rcases hip with h | ⟨s, hs, hne, hp⟩
      · exact Or.inl h
      · injection hs with hs'
        subst hs'
        exact Or.inr ⟨hne, hp⟩
  · rintro ⟨hex, hd, hip, hh⟩
    refine ⟨⟨⟨?_, ?_⟩, ?_⟩, hh⟩
    · rw [Bool.eq_false_iff]
      intro habs
      obtain ⟨t, ht, hsub⟩ :=
        (shouldExclude_iff jsonArr q.domain rule.exclude_domains).mp habs
      rw [hex t ht] at hsub
      exact absurd hsub (by simp)
    · rcases hd with h | ⟨hne, p, hp1, hp2⟩
      · exact Or.inl h
      · exact Or.inr ⟨q.domain, rfl, hne, p, hp1, hp2⟩
    · rcases hip with h | ⟨hne, p, hp1, hp2⟩
      · exact Or.inl h
      · exact Or.inr ⟨q.client_ip, rfl, hne, p, hp1, hp2⟩

/-! ## Claim C6: the history-row status update -/

/-- C6 (counterexample): the rule batch's only channel fails with error "boom";
the per-channel map records the failure and the channel's health captures the
error string, but the `AlertHistory` row is updated with
`notification_sent = false` and `notification_error = None`:
`process_rule_batch` calls `update_alert_status` without an `error` argument
(and `send_batch_alert`'s result map carries no error strings at all), so the
first send error is never captured in the row. -/
theorem batch_status_error_cex :
    (sendBatchAlert
      [{ id := 7, domain := ['x'], client_ip := ['i'], client_hostname := none,
         timestamp := 0, server := ['s'] }]
      [{ id := 1, channel_type := "telegram".toList, enabled := true,
         last_success_at := none, last_error := none, last_error_at := none,
         consecutive_failures := 0 }]
      (fun _ => SendOutcome.failure "boom".toList) 200).1 = [(1, false)] ∧
    ((sendBatchAlert
      [{ id := 7, domain := ['x'], client_ip := ['i'], client_hostname := none,
         timestamp := 0, server := ['s'] }]
      [{ id := 1, channel_type := "telegram".toList, enabled := true,
         last_success_at := none, last_error := none, last_error_at := none,
         consecutive_failures := 0 }]
      (fun _ => SendOutcome.failure "boom".toList) 200).2.map
        Channel.last_error) = [some "boom".toList] ∧
    (processBatchStatusUpdate
      { rows := [{ id := 0, alert_rule_id := 3, query_id := 7,
                   triggered_at := 100, notification_sent := false,
                   notification_error := none }], nextId := 1 }
      0 [(1, false)]).rows.map AlertHistoryRow.notification_sent = [false] ∧
    (processBatchStatusUpdate
      { rows := [{ id := 0, alert_rule_id := 3, query_id := 7,
                   triggered_at := 100, notification_sent := false,
                   notification_error := none }], nextId := 1 }
      0 [(1, false)]).rows.map AlertHistoryRow.notification_error = [none] := by
  refine ⟨?_, ?_, ?_, ?_⟩ <;> decide

/-- C6 (amended): after all channels are attempted, the `AlertHistory` row is
updated with `notification_sent = true` iff at least one channel succeeded; its
`notification_error` field is set to `None` in both cases, because
`process_rule_batch` does not pass an error to `update_alert_status` (per-channel
errors live only on the channels' health fields). -/
theorem batch_status_update (db : HistDB) (histId : Nat)
    (results : List (Nat × Bool)) :
    (processBatchStatusUpdate db histId results).rows =
      db.rows.map (fun r =>
        if r.id = histId then
          { r with notification_sent := results.any (fun p => p.2),
                   notification_error := none }
        else r) ∧
    (results.any (fun p => p.2) = true ↔ ∃ p ∈ results, p.2 = true) :=
  ⟨rfl, by simp [List.any_eq_true]⟩

/-! ## Claim C7: per-channel health updates and failure isolation -/

theorem processChannel_result_fst (outcome : Nat → SendOutcome) (now : Int)
    (ch : Channel) : (processChannel outcome now ch).2.1 = ch.id := by
  unfold processChannel
  split <;> rfl

theorem processChannel_flag (outcome : Nat → SendOutcome) (now : Int)
    (ch : Channel) :
    (processChannel outcome now ch).2.2 = true ↔
      (knownChannelTypes.contains ch.channel_type = true ∧
       outcome ch.id = SendOutcome.success) := by
  unfold processChannel
  by_cases h : knownChannelTypes.contains ch.channel_type = true
  · have hm : ch.channel_type ∈ knownChannelTypes := by simpa using h
    rw [if_pos h]
    cases ho : outcome ch.id <;> simp [h, hm, ho, applyOutcome]
  · have hm : ch.channel_type ∉ knownChannelTypes := by simpa using h
    rw [if_neg h]
    simp [hm]

theorem mem_zip_map {α β : Type} (g : α → β) :
    ∀ (l : List α) (pr : α × β), pr ∈ l.zip (l.map g) →
      pr.2 = g pr.1 ∧ pr.1 ∈ l := by
  intro l
  induction l with
  | nil =>
    intro pr h
    simp at h
  | cons a t ih =>
    intro pr h
    rw [List.map_cons, List.zip_cons_cons] at h
    rcases List.mem_cons.mp h with h | h
    · subst h
      exact ⟨rfl, by simp⟩
    · obtain ⟨h1, h2⟩ := ih pr h
      exact ⟨h1, by simp [h2]⟩

/-- C7: for a non-empty batch, every enabled channel gets an entry in the result
map, in order, regardless of other channels' failures (no batch-level exception
exists: the loop isolates each channel); a successful send clears
`last_error`/`last_error_at`, sets `last_success_at` and resets
`consecutive_failures` to 0; a returned error or a raised exception records the
error string and timestamp and increments `consecutive_failures` by 1; and the
recorded boolean is true exactly for a known channel type whose send
succeeded. -/
theorem send_batch_alert_isolation (queries : List Query)
    (channels : List Channel) (outcome : Nat → SendOutcome) (now : Int)
    (hq : queries ≠ []) :
    ((sendBatchAlert queries channels outcome now).1.map (fun p => p.1) =
      channels.map (fun c => c.id)) ∧
    ((sendBatchAlert queries channels outcome now).2.length =
      channels.length) ∧
    (∀ pr ∈ channels.zip (sendBatchAlert queries channels outcome now).2,
      knownChannelTypes.contains pr.1.channel_type = true →
        ((outcome pr.1.id = SendOutcome.success →
           pr.2 =
             { pr.1 with
                 last_success_at := some now, last_error := none,
                 last_error_at := none, consecutive_failures := 0 }) ∧
         (∀ e, (outcome pr.1.id = SendOutcome.failure e ∨
                outcome pr.1.id = SendOutcome.raised e) →
           pr.2.last_error = some e ∧ pr.2.last_error_at = some now ∧
           pr.2.consecutive_failures = pr.1.consecutive_failures + 1))) ∧
    (∀ pr ∈ channels.zip (sendBatchAlert queries channels outcome now).1,
      pr.2.1 = pr.1.id ∧
      (pr.2.2 = true ↔
        (knownChannelTypes.contains pr.1.channel_type = true ∧
         outcome pr.1.id = SendOutcome.success))) := by
  have hqe : queries.isEmpty = false := List.isEmpty_eq_false.mpr hq
  have h1 : (sendBatchAlert queries channels outcome now).1 =
      channels.map (fun c => (processChannel outcome now c).2) := by
    unfold sendBatchAlert
    rw [hqe]
    simp only [Bool.false_eq_true, if_false, List.map_map]
    rfl
  have h2 : (sendBatchAlert queries channels outcome now).2 =
      channels.map (fun c => (processChannel outcome now c).1) := by
    unfold sendBatchAlert
    rw [hqe]
    simp only [Bool.false_eq_true, if_false, List.map_map]
    rfl
  refine ⟨?_, ?_, ?_, ?_⟩
  · rw [h1, List.map_map]
    exact List.map_congr_left
      (fun c _ => processChannel_result_fst outcome now c)
  · rw [h2, List.length_map]
  · intro pr hpr hknown
    rw [h2] at hpr
    have hmem := mem_zip_map _ channels pr hpr
    have hch : pr.2 = (applyOutcome pr.1 (outcome pr.1.id) now).1 := by
      rw [hmem.1]
      show (processChannel outcome now pr.1).1 = _
      unfold processChannel
      rw [if_pos hknown]
    constructor
    · intro hs
      rw [hch, hs]
      rfl
    · intro e he
      rcases he with he | he <;> rw [hch, he] <;>
        exact ⟨rfl, rfl, rfl⟩
  · intro pr hpr
    rw [h1] at hpr
    have hmem := mem_zip_map _ channels pr hpr
    constructor
    · rw [hmem.1]
      exact processChannel_result_fst outcome now pr.1
    · rw [hmem.1]
      exact processChannel_flag outcome now pr.1

/-- Witness for C7: one failing telegram channel and one succeeding discord
channel; both get result entries, the failure is isolated. -/
theorem send_batch_alert_isolation_witness :
    ((sendBatchAlert
       [{ id := 7, domain := ['x'], client_ip := ['i'], client_hostname := none,
          timestamp := 0, server := ['s'] }]
       [{ id := 1, channel_type := "telegram".toList, enabled := true,
          last_success_at := none, last_error := none, last_error_at := none,
          consecutive_failures := 0 },
        { id := 2, channel_type := "discord".toList, enabled := true,
          last_success_at := none, last_error := none, last_error_at := none,
          consecutive_failures := 4 }]
       (fun i => if i = 1 then SendOutcome.failure "boom".toList
                 else SendOutcome.success) 50).1.map (fun p => p.1) =
      ([{ id := 1, channel_type := "telegram".toList, enabled := true,
          last_success_at := none, last_error := none, last_error_at := none,
          consecutive_failures := 0 },
        { id := 2, channel_type := "discord".toList, enabled := true,
          last_success_at := none, last_error := none, last_error_at := none,
          consecutive_failures := 4 }] : List Channel).map (fun c => c.id)) ∧
    ((sendBatchAlert
       [{ id := 7, domain := ['x'], client_ip := ['i'], client_hostname := none,
          timestamp := 0, server := ['s'] }]
       [{ id := 1, channel_type := "telegram".toList, enabled := true,
          last_success_at := none, last_error := none, last_error_at := none,
          consecutive_failures := 0 },
        { id := 2, channel_type := "discord".toList, enabled := true,
          last_success_at := none, last_error := none, last_error_at := none,
          consecutive_failures := 4 }]
       (fun i => if i = 1 then SendOutcome.failure "boom".toList
                 else SendOutcome.success) 50).2.length = 2) :=
  ⟨(send_batch_alert_isolation _ _ _ 50 (by decide)).1,
   (send_batch_alert_isolation _ _ _ 50 (by decide)).2.1⟩

/-! ## Claim C8: the two bounded LRU caches -/

theorem mem_keys_of_assocFind_some {α : Type} :
    ∀ {c : List (Nat × α)} {k : Nat} {v : α},
      assocFind c k = some v → k ∈ c.map Prod.fst := by
  intro c
  induction c with
  | nil =>
    intro k v h
    simp [assocFind] at h
  | cons hd tl ih =>
    intro k v h
    obtain ⟨k', v'⟩ := hd
    rw [show assocFind ((k', v') :: tl) k =
        (if k' = k then some v' else assocFind tl k) from rfl] at h
    by_cases hk : k' = k
    · simp [hk]
    · rw [if_neg hk] at h
      simp [ih h]

theorem not_mem_keys_of_assocFind_none {α : Type} {c : List (Nat × α)} {k : Nat}
    (h : assocFind c k = none) : k ∉ c.map Prod.fst := by
  intro hmem
  obtain ⟨p, hp, hpk⟩ := List.mem_map.mp hmem
  exact (assocFind_eq_none_iff c k).mp h p hp hpk

theorem map_fst_moveToEnd {α : Type} (c : List (Nat × α)) (k : Nat) (v : α)
    (h : assocFind c k = some v) :
    (moveToEnd c k).map Prod.fst =
      (c.map Prod.fst).filter (fun x => x ≠ k) ++ [k] := by
  unfold moveToEnd
  rw [h, List.map_append, List.filter_map]
  rfl

theorem map_fst_getRuleLock (st : LockRegistry) (rid : Nat) :
    (getRuleLock st rid).2.rule_locks.map Prod.fst =
      lruKeysStep (st.rule_locks.map Prod.fst) rid st.max_locks := by
  cases h : assocFind st.rule_locks rid with
  | some v =>
    have hc : (st.rule_locks.map Prod.fst).contains rid = true := by
      simpa using mem_keys_of_assocFind_some h
    have hlhs : (getRuleLock st rid).2.rule_locks = moveToEnd st.rule_locks rid := by
      unfold getRuleLock
      rw [h]
    rw [hlhs]
    unfold lruKeysStep
    rw [if_pos hc]
    exact map_fst_moveToEnd _ _ _ h
  | none =>
    have hc : ¬(st.rule_locks.map Prod.fst).contains rid = true := by
      simpa using not_mem_keys_of_assocFind_none h
    have hlhs : (getRuleLock st rid).2.rule_locks =
        (if st.max_locks < st.rule_locks.length + 1
         then (st.rule_locks ++ [(rid, st.next_lock)]).drop 1
         else st.rule_locks ++ [(rid, st.next_lock)]) := by
      unfold getRuleLock
      rw [h]
      simp only [List.length_append, List.length_singleton]
    rw [hlhs]
    unfold lruKeysStep
    rw [if_neg hc]
    by_cases hm : st.max_locks < st.rule_locks.length + 1
    · rw [if_pos hm,
        if_pos (by rwa [List.length_map] : st.max_locks <
          (st.rule_locks.map Prod.fst).length + 1),
        List.map_drop, List.map_append]
      rfl
    · rw [if_neg hm,
        if_neg (by rwa [List.length_map] : ¬st.max_locks <
          (st.rule_locks.map Prod.fst).length + 1),
        List.map_append]
      rfl

theorem map_fst_getCachedPatterns (st : PatternCache) (rule : AlertRule) :
    (getCachedPatterns st rule).2.pattern_cache.map Prod.fst =
      lruKeysStep (st.pattern_cache.map Prod.fst) rule.id
        st.max_pattern_cache := by
  cases h : assocFind st.pattern_cache rule.id with
  | some v =>
    have hc : (st.pattern_cache.map Prod.fst).contains rule.id = true := by
      simpa using mem_keys_of_assocFind_some h
    have hlhs : (getCachedPatterns st rule).2.pattern_cache =
        moveToEnd st.pattern_cache rule.id := by
      unfold getCachedPatterns
      rw [h]
    rw [hlhs]
    unfold lruKeysStep
    rw [if_pos hc]
    exact map_fst_moveToEnd _ _ _ h
  | none =>
    have hc : ¬(st.pattern_cache.map Prod.fst).contains rule.id = true := by
      simpa using not_mem_keys_of_assocFind_none h
    have hlhs : (getCachedPatterns st rule).2.pattern_cache =
        (if st.max_pattern_cache < st.pattern_cache.length + 1
         then (st.pattern_cache ++
           [(rule.id,
             ({ domain := compilePatterns rule.domain_pattern,
                client_ip := compilePatterns rule.client_ip_pattern,
                client_hostname :=
                  compilePatterns rule.client_hostname_pattern } :
               PatternSet))]).drop 1
         else st.pattern_cache ++
           [(rule.id,
             ({ domain := compilePatterns rule.domain_pattern,
                client_ip := compilePatterns rule.client_ip_pattern,
                client_hostname :=
                  compilePatterns rule.client_hostname_pattern } :
               PatternSet))]) := by
      unfold getCachedPatterns
      rw [h]
      simp only [List.length_append, List.length_singleton]
    rw [hlhs]
    unfold lruKeysStep
    rw [if_neg hc]
    by_cases hm : st.max_pattern_cache < st.pattern_cache.length + 1
    · rw [if_pos hm,
        if_pos (by rwa [List.length_map] : st.max_pattern_cache <
          (st.pattern_cache.map Prod.fst).length + 1),
        List.map_drop, List.map_append]
      rfl
    · rw [if_neg hm,
        if_neg (by rwa [List.length_map] : ¬st.max_pattern_cache <
          (st.pattern_cache.map Prod.fst).length + 1),
        List.map_append]
      rfl

theorem lruKeysStep_length_le {ks : List Nat} {k maxSize : Nat}
    (h : ks.length ≤ maxSize) : (lruKeysStep ks k maxSize).length ≤ maxSize := by
  unfold lruKeysStep
  by_cases hc : ks.contains k = true
  · rw [if_pos hc, List.length_append, List.length_singleton]
    have hlt : (ks.filter (fun x => x ≠ k)).length < ks.length :=
      List.length_filter_lt_length_iff_exists.mpr
        ⟨k, by simpa using hc, by simp⟩
    omega
  · rw [if_neg hc]
    by_cases hm : maxSize < ks.length + 1
    · rw [if_pos hm, List.length_drop, List.length_append,
        List.length_singleton]
      omega
    · rw [if_neg hm, List.length_append, List.length_singleton]
      omega

theorem foldKeys_fresh (K : Nat) :
    ∀ (ids : List Nat) (ks : List Nat), ks.length ≤ K → ids.Nodup →
      (∀ i ∈ ids, i ∉ ks) →
      ids.foldl (fun a i => lruKeysStep a i K) ks =
        (ks ++ ids).drop (ks.length + ids.length - K) := by
  intro ids
  induction ids with
  | nil =>
    intro ks hK _ _
    simp [Nat.sub_eq_zero_of_le hK]
  | cons i rest ih =>
    intro ks hK hnodup hfresh
    have hco : ¬ks.contains i = true := by
      simpa using hfresh i (by simp)
    rw [List.foldl_cons]
    have hfresh' : ∀ j ∈ rest, j ∉ ks ++ [i] := by
      intro j hj hmem
      rcases List.mem_append.mp hmem with hm | hm
      · exact hfresh j (by simp [hj]) hm
      · have hji : j = i := List.mem_singleton.mp hm
        exact (List.nodup_cons.mp hnodup).1 (hji ▸ hj)
    by_cases hm : K < ks.length + 1
    · have hlen : ks.length = K := by omega
      have hstep : lruKeysStep ks i K = (ks ++ [i]).drop 1 := by
        unfold lruKeysStep
        rw [if_neg hco, if_pos hm]
      have hlen' : ((ks ++ [i]).drop 1).length ≤ K := by
        rw [List.length_drop, List.length_append, List.length_singleton]
        omega
      have hfresh'' : ∀ j ∈ rest, j ∉ (ks ++ [i]).drop 1 :=
        fun j hj hmem => hfresh' j hj (List.mem_of_mem_drop hmem)
      rw [hstep, ih _ hlen' (List.nodup_cons.mp hnodup).2 hfresh'']
      rw [show (ks ++ [i]).drop 1 ++ rest = ((ks ++ [i]) ++ rest).drop 1 from
            (List.drop_append_of_le_length (by
              rw [List.length_append, List.length_singleton]; omega)).symm,
        List.drop_drop, List.append_assoc, List.singleton_append,
        List.length_drop, List.length_append, List.length_singleton,
        List.length_cons]
      congr 1
      omega
    · have hstep : lruKeysStep ks i K = ks ++ [i] := by
        unfold lruKeysStep
        rw [if_neg hco, if_neg hm]
      have hlen' : (ks ++ [i]).length ≤ K := by
        rw [List.length_append, List.length_singleton]
        omega
      rw [hstep, ih _ hlen' (List.nodup_cons.mp hnodup).2 hfresh',
        List.append_assoc, List.singleton_append,
        List.length_append, List.length_singleton, List.length_cons]
      congr 1
      omega

theorem insertAllLocks_keys (ids : List Nat) :
    ∀ st : LockRegistry,
      (insertAllLocks st ids).rule_locks.map Prod.fst =
        ids.foldl (fun a i => lruKeysStep a i st.max_locks)
          (st.rule_locks.map Prod.fst) := by
  induction ids with
  | nil => intro st; rfl
  | cons i rest ih =>
    intro st
    have hmax : (getRuleLock st i).2.max_locks = st.max_locks := by
      unfold getRuleLock
      cases assocFind st.rule_locks i <;> rfl
    show (insertAllLocks (getRuleLock st i).2 rest).rule_locks.map Prod.fst = _
    rw [ih ((getRuleLock st i).2), hmax, map_fst_getRuleLock,
      List.foldl_cons]

theorem insertAllPatterns_keys (rules : List AlertRule) :
    ∀ st : PatternCache,
      (insertAllPatterns st rules).pattern_cache.map Prod.fst =
        (rules.map AlertRule.id).foldl
          (fun a i => lruKeysStep a i st.max_pattern_cache)
          (st.pattern_cache.map Prod.fst) := by
  induction rules with
  | nil => intro st; rfl
  | cons r rest ih =>
    intro st
    have hmax : (getCachedPatterns st r).2.max_pattern_cache =
        st.max_pattern_cache := by
      unfold getCachedPatterns
      cases assocFind st.pattern_cache r.id <;> rfl
    show (insertAllPatterns (getCachedPatterns st r).2 rest).pattern_cache.map
      Prod.fst = _
    rw [ih ((getCachedPatterns st r).2), hmax, map_fst_getCachedPatterns,
      List.map_cons, List.foldl_cons]

/-- C8: both `_get_rule_lock` and `_get_cached_patterns` keep their dict within
the configured bound (1000 and 500 in `AlertEngine.__init__`); inserting `K + 1`
distinct rule ids into an empty cache with maximum `K` leaves exactly the last
`K` ids — the evicted entry is the first inserted, i.e. the least recently used
(a hit moves its key to the most-recently-used end, so reads refresh
recency). -/
theorem lru_bound_and_eviction (K : Nat) :
    (∀ (st : LockRegistry) (rid : Nat),
      st.rule_locks.length ≤ st.max_locks →
      (getRuleLock st rid).2.rule_locks.length ≤ st.max_locks) ∧
    (∀ (st : PatternCache) (rule : AlertRule),
      st.pattern_cache.length ≤ st.max_pattern_cache →
      (getCachedPatterns st rule).2.pattern_cache.length ≤
        st.max_pattern_cache) ∧
    (∀ ids : List Nat, ids.Nodup → ids.length = K + 1 →
      (insertAllLocks { rule_locks := [], next_lock := 0, max_locks := K }
        ids).rule_locks.map Prod.fst = ids.drop 1) ∧
    (∀ rules : List AlertRule, (rules.map AlertRule.id).Nodup →
      rules.length = K + 1 →
      (insertAllPatterns { pattern_cache := [], max_pattern_cache := K }
        rules).pattern_cache.map Prod.fst = (rules.map AlertRule.id).drop 1) ∧
    (∀ (st : LockRegistry) (rid l : Nat),
      assocFind st.rule_locks rid = some l →
      (getRuleLock st rid).2.rule_locks =
        st.rule_locks.filter (fun p => p.1 ≠ rid) ++ [(rid, l)]) ∧
    initAlertEngine.1.max_locks = 1000 ∧
    initAlertEngine.2.max_pattern_cache = 500 := by
  refine ⟨?_, ?_, ?_, ?_, ?_, rfl, rfl⟩
  · intro st rid hb
    have hk := congrArg List.length (map_fst_getRuleLock st rid)
    rw [List.length_map] at hk
    rw [hk]
    exact lruKeysStep_length_le (by rwa [List.length_map])
  · intro st rule hb
    have hk := congrArg List.length (map_fst_getCachedPatterns st rule)
    rw [List.length_map] at hk
    rw [hk]
    exact lruKeysStep_length_le (by rwa [List.length_map])
  · intro ids hnd hlen
    rw [insertAllLocks_keys]
    rw [show (({ rule_locks := [], next_lock := 0, max_locks := K } :
        LockRegistry)).rule_locks.map Prod.fst = [] from rfl]
    rw [foldKeys_fresh K ids [] (by simp) hnd (by simp)]
    simp [hlen]
  · intro rules hnd hlen
    rw [insertAllPatterns_keys]
    rw [show (({ pattern_cache := [], max_pattern_cache := K } :
        PatternCache)).pattern_cache.map Prod.fst = [] from rfl]
    rw [foldKeys_fresh K (rules.map AlertRule.id) [] (by simp) hnd (by simp)]
    simp [hlen]
  · intro st rid l h
    unfold getRuleLock
    rw [h]
    show moveToEnd st.rule_locks rid = _
    unfold moveToEnd
    rw [h]

/-- Witness for C8: three distinct ids into an empty lock registry with maximum
2 leave the last two; the first inserted (least recently used) is evicted. -/
theorem lru_bound_and_eviction_witness :
    (insertAllLocks { rule_locks := [], next_lock := 0, max_locks := 2 }
      [5, 6, 7]).rule_locks.map Prod.fst = [5, 6, 7].drop 1 :=
  (lru_bound_and_eviction 2).2.2.1 [5, 6, 7] (by decide) (by decide)

/-- Witness for C4 (amended): a query for `ads` matches a rule whose only
matcher is `*ads*` on the domain field. -/
theorem rule_match_characterization_witness :
    ruleMatches (fun _ => none)
      { id := 1, domain := ['a', 'd', 's'], client_ip := ['i'],
        client_hostname := none, timestamp := 0, server := [] }
      { id := 1, name := [], domain_pattern := some ['a', 'd', 's'],
        client_ip_pattern := none, client_hostname_pattern := none,
        exclude_domains := none, cooldown_minutes := 5, enabled := true }
      { domain := [['*', 'a', 'd', 's', '*']], client_ip := [],
        client_hostname := [] } = true :=
  (rule_match_characterization (fun _ => none)
    { id := 1, domain := ['a', 'd', 's'], client_ip := ['i'],
      client_hostname := none, timestamp := 0, server := [] }
    { id := 1, name := [], domain_pattern := some ['a', 'd', 's'],
      client_ip_pattern := none, client_hostname_pattern := none,
      exclude_domains := none, cooldown_minutes := 5, enabled := true }
    { domain := [['*', 'a', 'd', 's', '*']], client_ip := [],
      client_hostname := [] }).mpr (by decide)

/-- Witness for C6 (amended): one succeeding channel, the row's error field
still ends up `None`. -/
theorem batch_status_update_witness :
    (processBatchStatusUpdate
      { rows := [{ id := 0, alert_rule_id := 3, query_id := 7,
                   triggered_at := 100, notification_sent := false,
                   notification_error := some ['e'] }], nextId := 1 }
      0 [(1, true)]).rows =
      ([{ id := 0, alert_rule_id := 3, query_id := 7, triggered_at := 100,
          notification_sent := false, notification_error := some ['e'] }] :
        List AlertHistoryRow).map (fun r =>
          if r.id = 0 then
            { r with notification_sent := [(1, true)].any (fun p => p.2),
                     notification_error := none }
          else r) ∧
    ([(1, true)].any (fun p => p.2) = true ↔
      ∃ p ∈ [(1, true)], p.2 = true) :=
  batch_status_update
    { rows := [{ id := 0, alert_rule_id := 3, query_id := 7,
                 triggered_at := 100, notification_sent := false,
                 notification_error := some ['e'] }], nextId := 1 }
    0 [(1, true)]

end DNSMon
